import Mathlib

/-!
Verification of the OxideVault Minecraft Server-List-Ping protocol client
(`src/mc_server/protocol.rs` and `src/mc_server/mod.rs`) against its
natural-language specification.

Bytes are modelled as `Nat` (every value produced by the code is `< 256`);
machine integers are modelled as `Nat`/`Int` with explicit `% 2^w` where the
Rust code wraps.  `i32` values are carried as their unsigned 32-bit pattern
(a `Nat < 2^32`) inside the decoder, exactly as the Rust code manipulates the
bits, and reinterpreted as a signed value (`toInt32`) where the code returns
an `i32`.  Fallible Rust functions returning `std::io::Result` become
`Except IoError`; code paths that can panic (slice indexing with an invalid
range, overflowing arithmetic) are modelled with the `Outcome` type, which has
an explicit `panicked` constructor.
-/

namespace OxideVault

/-- The `std::io::ErrorKind` values used by the protocol module. -/
inductive IoErrorKind where
  | unexpectedEof
  | invalidData
  | invalidInput
deriving DecidableEq

/-- An `std::io::Error`: a kind plus the message passed to `Error::new`. -/
structure IoError where
  kind : IoErrorKind
  msg : String
deriving DecidableEq

/-- `read_varint_from_slice` error (protocol.rs lines 73-77). -/
def eofVarIntErr : IoError :=
  ⟨.unexpectedEof, "Unexpected end of data while reading VarInt"⟩

/-- `process_varint_byte` error (protocol.rs lines 97-102). -/
def tooBigErr : IoError := ⟨.invalidData, "VarInt is too big"⟩

/-- `read_string` error (protocol.rs lines 120-125). -/
def truncatedStringErr : IoError :=
  ⟨.unexpectedEof, "String length exceeds data size"⟩

/-- The error `Read::read_exact` returns when the source is exhausted
(kind `UnexpectedEof`); used by the stream-based `read_varint`. -/
def streamEofErr : IoError := ⟨.unexpectedEof, "failed to fill whole buffer"⟩

/-- The error std's `ToSocketAddrs for str` returns when the string is not
`host:port` (kind `InvalidInput`). -/
def invalidSocketAddrErr : IoError := ⟨.invalidInput, "invalid socket address"⟩

/-- Result of running a piece of Rust code that may return a value, return an
`std::io::Error`, or panic. -/
inductive Outcome (α : Type) where
  | ok (a : α)
  | err (e : IoError)
  | panicked
deriving DecidableEq

/-- `value as u32`: the unsigned 32-bit pattern of an `i32` value
(protocol.rs line 35). -/
def toU32 (v : Int) : Nat := (v % 4294967296).toNat

/-- Reinterpret an unsigned 32-bit pattern as an `i32` value (the value the
Rust decoder returns in its `result : i32`). -/
def toInt32 (n : Nat) : Int :=
  if n < 2147483648 then (n : Int) else (n : Int) - 4294967296

/-- `value as usize` for an `i32` value: sign-extension to 64 bits
(`read_string`, protocol.rs lines 120 and 126). -/
def intAsUsize (v : Int) : Nat := (v % 18446744073709551616).toNat

/-- The loop of `write_varint` (protocol.rs lines 37-47), after the cast to
`u32`: push the low 7 bits, with bit 7 set iff the shifted value is nonzero;
stop when it is zero.  Returns the bytes pushed into `buf`. -/
def write_varint_u32 (v : Nat) : List Nat :=
  if h : v >>> 7 = 0 then [v &&& 127]
  else ((v &&& 127) ||| 128) :: write_varint_u32 (v >>> 7)
termination_by v
decreasing_by
  rw [Nat.shiftRight_eq_div_pow] at h ⊢
  omega

/-- `write_varint` (protocol.rs lines 33-49): convert the `i32` to `u32`,
then emit base-128 digits.  Returns the bytes appended to `buf`. -/
def write_varint (value : Int) : List Nat := write_varint_u32 (toU32 value)

/-- `process_varint_byte` (protocol.rs lines 91-104).  `res` is the unsigned
pattern of the `result : i32` accumulator.  Returns
(complete?, new result, new shift).  The `% 2^32` reflects that `<<` on `i32`
discards bits shifted above bit 31. -/
def process_varint_byte (byte res shift : Nat) :
    Except IoError (Bool × Nat × Nat) :=
  let res2 := res ||| ((byte &&& 127) <<< shift) % 4294967296
  if byte &&& 128 = 0 then .ok (true, res2, shift)
  else if shift + 7 ≥ 35 then .error tooBigErr
  else .ok (false, res2, shift + 7)

/-- The loop of `read_varint_from_slice` (protocol.rs lines 72-84): the `[]`
case is the `pos >= data.len()` check, `pos` counts consumed bytes. -/
def read_varint_loop : List Nat → Nat → Nat → Nat → Except IoError (Int × Nat)
  | [], _, _, _ => .error eofVarIntErr
  | byte :: rest, res, shift, pos =>
    match process_varint_byte byte res shift with
    | .error e => .error e
    | .ok (done, res2, shift2) =>
      if done then .ok (toInt32 res2, pos + 1)
      else read_varint_loop rest res2 shift2 (pos + 1)

/-- `read_varint_from_slice` (protocol.rs lines 68-86): decoded value and
number of bytes consumed. -/
def read_varint_from_slice (data : List Nat) : Except IoError (Int × Nat) :=
  read_varint_loop data 0 0 0

/-- The loop of the stream-based `read_varint` (protocol.rs lines 55-61):
`read_exact` on one byte takes the head of the remaining stream, or fails
with `UnexpectedEof` when the stream is exhausted. -/
def read_varint_stream_loop : List Nat → Nat → Nat → Except IoError (Int × List Nat)
  | [], _, _ => .error streamEofErr
  | byte :: rest, res, shift =>
    match process_varint_byte byte res shift with
    | .error e => .error e
    | .ok (done, res2, shift2) =>
      if done then .ok (toInt32 res2, rest)
      else read_varint_stream_loop rest res2 shift2

/-- `read_varint` (protocol.rs lines 52-63) over a stream modelled as the
list of bytes it will deliver; returns the value and the rest of the
stream. -/
def read_varint (stream : List Nat) : Except IoError (Int × List Nat) :=
  read_varint_stream_loop stream 0 0

/-- A UTF-8 continuation byte, `0x80 ..= 0xBF`. -/
def utf8IsCont (c : Nat) : Bool := 128 ≤ c && c ≤ 191

/-- Valid range of the first continuation byte of a 3-byte sequence, by
leading byte (std UTF-8 validation: `E0` excludes overlongs, `ED` excludes
surrogates). -/
def utf8Cont3First (b c : Nat) : Bool :=
  if b = 224 then 160 ≤ c && c ≤ 191
  else if b = 237 then 128 ≤ c && c ≤ 159
  else utf8IsCont c

/-- Valid range of the first continuation byte of a 4-byte sequence, by
leading byte (`F0` excludes overlongs, `F4` excludes values above
U+10FFFF). -/
def utf8Cont4First (b c : Nat) : Bool :=
  if b = 240 then 144 ≤ c && c ≤ 191
  else if b = 244 then 128 ≤ c && c ≤ 143
  else utf8IsCont c

/-- The UTF-8 bytes of U+FFFD REPLACEMENT CHARACTER. -/
def utf8Replacement : List Nat := [239, 191, 189]

/-- `String::from_utf8_lossy`, at the byte level: valid UTF-8 sequences are
kept, each maximal invalid subpart is replaced by U+FFFD (the WHATWG
substitution rule std implements: on error, skip the bytes of the longest
valid prefix of a sequence, at least one). -/
def utf8Lossy : List Nat → List Nat
  | [] => []
  | b :: rest =>
    if b ≤ 127 then b :: utf8Lossy rest
    else if 194 ≤ b && b ≤ 223 then
      match rest with
      | [] => utf8Replacement
      | c1 :: rest1 =>
        if utf8IsCont c1 then b :: c1 :: utf8Lossy rest1
        else utf8Replacement ++ utf8Lossy (c1 :: rest1)
    else if 224 ≤ b && b ≤ 239 then
      match rest with
      | [] => utf8Replacement
      | c1 :: rest1 =>
        if utf8Cont3First b c1 then
          match rest1 with
          | [] => utf8Replacement
          | c2 :: rest2 =>
            if utf8IsCont c2 then b :: c1 :: c2 :: utf8Lossy rest2
            else utf8Replacement ++ utf8Lossy (c2 :: rest2)
        else utf8Replacement ++ utf8Lossy (c1 :: rest1)
    else if 240 ≤ b && b ≤ 244 then
      match rest with
      | [] => utf8Replacement
      | c1 :: rest1 =>
        if utf8Cont4First b c1 then
          match rest1 with
          | [] => utf8Replacement
          | c2 :: rest2 =>
            if utf8IsCont c2 then
              match rest2 with
              | [] => utf8Replacement
              | c3 :: rest3 =>
                if utf8IsCont c3 then b :: c1 :: c2 :: c3 :: utf8Lossy rest3
                else utf8Replacement ++ utf8Lossy (c3 :: rest3)
            else utf8Replacement ++ utf8Lossy (c2 :: rest2)
        else utf8Replacement ++ utf8Lossy (c1 :: rest1)
    else utf8Replacement ++ utf8Lossy rest

/-- Std's UTF-8 validity check on a byte sequence (the invariant every Rust
`String`/`str` satisfies), mirroring the case structure of `utf8Lossy`. -/
def utf8ValidB : List Nat → Bool
  | [] => true
  | b :: rest =>
    if b ≤ 127 then utf8ValidB rest
    else if 194 ≤ b && b ≤ 223 then
      match rest with
      | [] => false
      | c1 :: rest1 => utf8IsCont c1 && utf8ValidB rest1
    else if 224 ≤ b && b ≤ 239 then
      match rest with
      | [] => false
      | c1 :: rest1 =>
        utf8Cont3First b c1 &&
          match rest1 with
          | [] => false
          | c2 :: rest2 => utf8IsCont c2 && utf8ValidB rest2
    else if 240 ≤ b && b ≤ 244 then
      match rest with
      | [] => false
      | c1 :: rest1 =>
        utf8Cont4First b c1 &&
          match rest1 with
          | [] => false
          | c2 :: rest2 =>
            utf8IsCont c2 &&
              match rest2 with
              | [] => false
              | c3 :: rest3 => utf8IsCont c3 && utf8ValidB rest3
    else false

/-- `write_string` (protocol.rs lines 109-113): the VarInt byte-length of
`s` (cast `usize` → `i32`) followed by the UTF-8 bytes of `s`.  A Rust
`&str` is modelled as its list of UTF-8 bytes.  Returns the bytes appended
to `buf`. -/
def write_string (s : List Nat) : List Nat :=
  write_varint (s.length : Int) ++ s

/-- `read_string` (protocol.rs lines 118-128).  The bounds check
`offset + len as usize > data.len()` uses a wrapping 64-bit sum (what the
addition does in a release build); the subsequent slice
`data[offset .. offset + len as usize]` panics when its start exceeds its
end.  (In a debug build the addition itself panics on overflow in exactly
the cases where the release slice panics, so the ok/err/panicked
classification below is build-independent.) -/
def read_string (data : List Nat) : Outcome (List Nat) :=
  match read_varint_from_slice data with
  | .error e => .err e
  | .ok (len, offset) =>
    let lenUsize := intAsUsize len
    let endIdx := (offset + lenUsize) % 18446744073709551616
    if endIdx > data.length then .err truncatedStringErr
    else if offset > endIdx then .panicked
    else .ok (utf8Lossy ((data.drop offset).take (endIdx - offset)))

/-- `send_packet` (protocol.rs lines 12-18): the bytes written to the
stream for a payload, i.e. the VarInt of `data.len() as i32` followed by
the payload. -/
def send_packet_bytes (data : List Nat) : List Nat :=
  write_varint (data.length : Int) ++ data

/-- `u16::to_be_bytes`: the big-endian bytes of a port (mod.rs line 116).
For `p < 2^16` this is `[p / 256, p % 256]`. -/
def u16_be (p : Nat) : List Nat := [p / 256 % 256, p % 256]

/-- The handshake payload built by `ping_server` (mod.rs lines 107-117):
packet ID 0, protocol version -1, the protocol string of
`addr.ip().to_string()` (the resolved endpoint's IP, not the caller's
hostname string), the resolved port big-endian, next state 1.  `host_str`
is the IP string's UTF-8 bytes, `port` the `u16` returned by
`addr.port()`. -/
def ping_handshake (host_str : List Nat) (port : Nat) : List Nat :=
  write_varint 0 ++ write_varint (-1) ++ write_string host_str ++
    u16_be port ++ write_varint 1

/-- What `ping_server` does with the response packet payload (mod.rs line
129): `read_string(&response[1..])`.  Slicing `[1..]` panics when the
payload is empty; the packet-ID byte is dropped without being inspected. -/
def ping_read_response (response : List Nat) : Outcome (List Nat) :=
  if response.length < 1 then .panicked
  else read_string (response.drop 1)

/-- `true` iff `read_varint_from_slice` on `data` either fails or decodes a
non-negative length. -/
def declaredLenNonNeg (data : List Nat) : Bool :=
  match read_varint_from_slice data with
  | .ok (len, _) => decide (0 ≤ len)
  | .error _ => true

/-- Split a string at its last colon, as std's socket-address parsing does
(`rsplit_once` on the `host:port` form); `none` when there is no colon. -/
def rsplitColon : List Char → Option (List Char × List Char)
  | [] => none
  | c :: rest =>
    match rsplitColon rest with
    | some (h, p) => some (c :: h, p)
    | none => if c = ':' then some ([], rest) else none

/-- `u16::from_str` on the port digits: accumulate decimal digits, failing
on a non-digit or once the value leaves the `u16` range. -/
def parsePortLoop : List Char → Nat → Option Nat
  | [], acc => some acc
  | c :: rest, acc =>
    if c.isDigit then
      let acc2 := acc * 10 + (c.toNat - 48)
      if acc2 < 65536 then parsePortLoop rest acc2 else none
    else none

/-- `u16::from_str`: the empty string is not a port. -/
def parsePort : List Char → Option Nat
  | [] => none
  | s => parsePortLoop s 0

/-- Modelled from std: `ToSocketAddrs for str` requires the string to be
`host:port` — it is split at the last colon and the suffix must parse as a
`u16`; otherwise resolution fails with an `InvalidInput` "invalid socket
address" error.  (Std first tries to parse the whole string as an IP:port
literal, but a string without a colon can never be one, so that branch is
subsumed here.)  DNS resolution of the host is external; the parsed pair is
returned. -/
def resolve_str_addr (address : List Char) : Except IoError (List Char × Nat) :=
  match rsplitColon address with
  | none => .error invalidSocketAddrErr
  | some (host, portStr) =>
    match parsePort portStr with
    | none => .error invalidSocketAddrErr
    | some p => .ok (host, p)

/-- The resolution step of `ping_server` (mod.rs line 94): the caller's
address string is handed to `to_socket_addrs()` unchanged — no default port
is inserted. -/
def ping_resolve (address : List Char) : Except IoError (List Char × Nat) :=
  resolve_str_addr address

/-- A parsed JSON document (`serde_json::Value`; numbers restricted to the
integers, which is all the status schema uses). -/
inductive Json where
  | jnull
  | jbool (b : Bool)
  | jnum (n : Int)
  | jstr (s : String)
  | jarr (elems : List Json)
  | jobj (fields : List (String × Json))

/-- Look a field up in a JSON object (serde matches fields by name;
unknown fields are ignored by default). -/
def getField : List (String × Json) → String → Option Json
  | [], _ => none
  | (k, v) :: rest, key => if k = key then some v else getField rest key

/-- `VersionInfo` (mod.rs lines 24-28): `protocol` is a `u16`, carried as a
`Nat` whose range the deserializer enforces. -/
structure VersionInfo where
  name : String
  protocol : Nat
deriving DecidableEq

/-- `PlayerSample` (mod.rs lines 40-44). -/
structure PlayerSample where
  name : String
  id : String
deriving DecidableEq

/-- `PlayersInfo` (mod.rs lines 31-37): `max` and `online` are `u16`. -/
structure PlayersInfo where
  max : Nat
  online : Nat
  sample : List PlayerSample
deriving DecidableEq

/-- Rust's `String` type (alias: the name `String` is shadowed by the
`Description.String` constructor inside the `Description` namespace). -/
abbrev RsString := String

/-- `Description` (mod.rs lines 47-52): an untagged enum over the two wire
shapes. -/
inductive Description where
  | String (s : RsString)
  | Object (text : RsString)
deriving DecidableEq

/-- `Description::text` (mod.rs lines 54-62). -/
def Description.text : Description → RsString
  | .String s => s
  | .Object t => t

/-- `ServerStatus` (mod.rs lines 16-21). -/
structure ServerStatus where
  version : VersionInfo
  players : PlayersInfo
  description : Description
deriving DecidableEq

/-- serde deserialization of a `u16` from JSON: an integer in
`[0, 65535]`, anything else is an error. -/
def deU16 (j : Json) : Except String Nat :=
  match j with
  | .jnum n =>
    if 0 ≤ n ∧ n < 65536 then .ok n.toNat
    else .error "invalid value: integer out of range for u16"
  | _ => .error "invalid type: expected u16"

/-- serde deserialization of a `String` from JSON. -/
def deStr (j : Json) : Except String String :=
  match j with
  | .jstr s => .ok s
  | _ => .error "invalid type: expected a string"

/-- Derived `Deserialize` for `PlayerSample`. -/
def dePlayerSample (j : Json) : Except String PlayerSample :=
  match j with
  | .jobj fields =>
    match getField fields "name" with
    | none => .error "missing field name"
    | some jn =>
      match deStr jn with
      | .error e => .error e
      | .ok n =>
        match getField fields "id" with
        | none => .error "missing field id"
        | some ji =>
          match deStr ji with
          | .error e => .error e
          | .ok i => .ok ⟨n, i⟩
  | _ => .error "invalid type: expected object PlayerSample"

/-- serde deserialization of a `Vec<PlayerSample>`: elementwise. -/
def deSampleList : List Json → Except String (List PlayerSample)
  | [] => .ok []
  | j :: rest =>
    match dePlayerSample j with
    | .error e => .error e
    | .ok p =>
      match deSampleList rest with
      | .error e => .error e
      | .ok ps => .ok (p :: ps)

/-- Derived `Deserialize` for `VersionInfo`. -/
def deVersionInfo (j : Json) : Except String VersionInfo :=
  match j with
  | .jobj fields =>
    match getField fields "name" with
    | none => .error "missing field name"
    | some jn =>
      match deStr jn with
      | .error e => .error e
      | .ok n =>
        match getField fields "protocol" with
        | none => .error "missing field protocol"
        | some jp =>
          match deU16 jp with
          | .error e => .error e
          | .ok p => .ok ⟨n, p⟩
  | _ => .error "invalid type: expected object VersionInfo"

/-- Derived `Deserialize` for `PlayersInfo`: `sample` has
`#[serde(default)]`, so a missing `sample` field becomes the empty
vector. -/
def dePlayersInfo (j : Json) : Except String PlayersInfo :=
  match j with
  | .jobj fields =>
    match getField fields "max" with
    | none => .error "missing field max"
    | some jm =>
      match deU16 jm with
      | .error e => .error e
      | .ok m =>
        match getField fields "online" with
        | none => .error "missing field online"
        | some jo =>
          match deU16 jo with
          | .error e => .error e
          | .ok o =>
            match getField fields "sample" with
            | none => .ok ⟨m, o, []⟩
            | some (.jarr xs) =>
              match deSampleList xs with
              | .error e => .error e
              | .ok ps => .ok ⟨m, o, ps⟩
            | some _ => .error "invalid type: expected a sequence"
  | _ => .error "invalid type: expected object PlayersInfo"

/-- `#[serde(untagged)]` `Deserialize` for `Description`: try the `String`
variant first (a bare JSON string), then the `Object` variant (an object
with a string `text` field). -/
def deDescription (j : Json) : Except String Description :=
  match deStr j with
  | .ok s => .ok (.String s)
  | .error _ =>
    match j with
    | .jobj fields =>
      match getField fields "text" with
      | some jt =>
        match deStr jt with
        | .ok t => .ok (.Object t)
        | .error _ =>
          .error "data did not match any variant of untagged enum Description"
      | none =>
        .error "data did not match any variant of untagged enum Description"
    | _ => .error "data did not match any variant of untagged enum Description"

/-- Derived `Deserialize` for `ServerStatus` (the shape
`serde_json::from_str::<ServerStatus>` accepts). -/
def deServerStatus (j : Json) : Except String ServerStatus :=
  match j with
  | .jobj fields =>
    match getField fields "version" with
    | none => .error "missing field version"
    | some jv =>
      match deVersionInfo jv with
      | .error e => .error e
      | .ok v =>
        match getField fields "players" with
        | none => .error "missing field players"
        | some jp =>
          match dePlayersInfo jp with
          | .error e => .error e
          | .ok p =>
            match getField fields "description" with
            | none => .error "missing field description"
            | some jd =>
              match deDescription jd with
              | .error e => .error e
              | .ok d => .ok ⟨v, p, d⟩
  | _ => .error "invalid type: expected object ServerStatus"

/-- The normalized description text of a successful parse. -/
def statusDescText (r : Except String ServerStatus) : Option String :=
  match r with
  | .ok s => some s.description.text
  | .error _ => none

/-- The player sample of a successful parse. -/
def statusSample (r : Except String ServerStatus) : Option (List PlayerSample) :=
  match r with
  | .ok s => some s.players.sample
  | .error _ => none

/-- Whether a deserialization result is an error. -/
def isErrB {α : Type} (r : Except String α) : Bool :=
  match r with
  | .error _ => true
  | .ok _ => false

/-! ## Helper lemmas -/


/-- `x &&& 0x7F` keeps the low 7 bits: it is `x % 128`. -/
lemma and127_eq_mod (x : Nat) : x &&& 127 = x % 128 := by
  have h := Nat.and_pow_two_sub_one_eq_mod x 7
  norm_num at h
  exact h

/-- A value below 128 has bit 7 clear. -/
lemma and128_eq_zero {x : Nat} (h : x < 128) : x &&& 128 = 0 := by
  apply Nat.eq_of_testBit_eq
  intro i
  rw [show (128:Nat) = 2 ^ 7 by norm_num]
  by_cases hi : 7 = i
  · subst hi
    simp [Nat.testBit_and, Nat.testBit_lt_two_pow, h, Nat.testBit_lt_two_pow (show x < 2 ^ 7 by omega)]
  · have h2 : Nat.testBit 128 i = false := by
      rw [show (128:Nat) = 2 ^ 7 by norm_num, Nat.testBit_two_pow]
      simp [hi]
    simp [Nat.testBit_and, h2]

/-- Setting bit 7 on a value below 128 yields a value whose bit-7 test is
nonzero. -/
lemma add128_and128_ne_zero {x : Nat} (h : x < 128) : (128 + x) &&& 128 ≠ 0 := by
  intro h0
  have h1 : ((128 + x) &&& 128).testBit 7 = false := by rw [h0]; simp
  rw [Nat.testBit_and] at h1
  have h2 : (128 + x).testBit 7 = true := by
    rw [show (128:Nat) + x = 2 ^ 7 + x by norm_num]
    rw [Nat.testBit_two_pow_add_eq]
    rw [Nat.testBit_lt_two_pow (show x < 2 ^ 7 by omega)]
    rfl
  have h3 : (128:Nat).testBit 7 = true := by decide
  rw [h2, h3] at h1
  simp at h1

/-- Or-ing a multiple of `2^n` into a value below `2^n` is addition. -/
lemma or_mul_pow_eq_add (acc d n : Nat) (h : acc < 2 ^ n) :
    acc ||| d * 2 ^ n = acc + d * 2 ^ n := by
  calc acc ||| d * 2 ^ n = 2 ^ n * d ||| acc := by rw [Nat.or_comm, Nat.mul_comm]
    _ = 2 ^ n * d + acc := (Nat.mul_add_lt_is_or h d).symm
    _ = acc + d * 2 ^ n := by ring

/-- Setting bit 7 on a value below 128 is adding 128. -/
lemma or128_eq_add {x : Nat} (h : x < 128) : x ||| 128 = 128 + x := by
  have h2 := or_mul_pow_eq_add x 1 7 (by omega)
  norm_num at h2
  rw [h2]
  ring

/-- Decoding the bytes `write_varint` produced, from any reachable decoder
state, yields the accumulated value and consumes exactly the encoded
bytes. -/
lemma varint_roundtrip_loop (p : Nat) : ∀ (acc shift pos : Nat) (rest : List Nat),
    acc < 2 ^ shift → p * 2 ^ shift < 4294967296 →
    read_varint_loop (write_varint_u32 p ++ rest) acc shift pos
      = .ok (toInt32 (acc + p * 2 ^ shift), pos + (write_varint_u32 p).length) := by
  induction p using Nat.strong_induction_on with
  | _ p ih =>
    intro acc shift pos rest hacc hp
    rw [write_varint_u32]
    by_cases hd : p >>> 7 = 0
    · have hplt : p < 128 := by
        rw [Nat.shiftRight_eq_div_pow] at hd
        norm_num at hd
        omega
      have hb : p &&& 127 = p := by rw [and127_eq_mod]; omega
      rw [dif_pos hd]
      rw [List.singleton_append]
      simp only [read_varint_loop, process_varint_byte, hb, and128_eq_zero hplt,
        Nat.shiftLeft_eq, List.length_singleton]
      rw [Nat.mod_eq_of_lt hp, or_mul_pow_eq_add acc p shift hacc]
      simp
    · have hp128 : 128 ≤ p := by
        rw [Nat.shiftRight_eq_div_pow] at hd
        norm_num at hd
        omega
      have hmlt : p % 128 < 128 := Nat.mod_lt _ (by norm_num)
      have hb : p &&& 127 ||| 128 = 128 + p % 128 := by
        rw [and127_eq_mod, or128_eq_add hmlt]
      have hb7 : (128 + p % 128) &&& 127 = p % 128 := by rw [and127_eq_mod]; omega
      have hmle : p % 128 * 2 ^ shift ≤ p * 2 ^ shift :=
        Nat.mul_le_mul_right _ (Nat.mod_le p 128)
      have hshift : ¬ shift + 7 ≥ 35 := by
        have h32 : 2 ^ (shift + 7) ≤ p * 2 ^ shift := by
          rw [pow_add]
          calc 2 ^ shift * 2 ^ 7 = 128 * 2 ^ shift := by ring
            _ ≤ p * 2 ^ shift := Nat.mul_le_mul_right _ hp128
        have hlt32 : 2 ^ (shift + 7) < 2 ^ 32 := by
          calc 2 ^ (shift + 7) ≤ p * 2 ^ shift := h32
            _ < 4294967296 := hp
            _ = 2 ^ 32 := by norm_num
        have := (Nat.pow_lt_pow_iff_right (by norm_num : 1 < 2)).mp hlt32
        omega
      have hlt : p >>> 7 < p := by
        rw [Nat.shiftRight_eq_div_pow]
        exact Nat.div_lt_self (by omega) (by norm_num)
      have hacc2 : acc + p % 128 * 2 ^ shift < 2 ^ (shift + 7) := by
        have h1 : p % 128 * 2 ^ shift ≤ 127 * 2 ^ shift :=
          Nat.mul_le_mul_right _ (by omega)
        have h2 : acc + p % 128 * 2 ^ shift < 2 ^ shift + 127 * 2 ^ shift :=
          Nat.add_lt_add_of_lt_of_le hacc h1
        calc acc + p % 128 * 2 ^ shift < 2 ^ shift + 127 * 2 ^ shift := h2
          _ = 128 * 2 ^ shift := by ring
          _ = 2 ^ (shift + 7) := by rw [pow_add]; ring
      have hp2 : p >>> 7 * 2 ^ (shift + 7) < 4294967296 := by
        rw [Nat.shiftRight_eq_div_pow, pow_add]
        have h1 : p / 2 ^ 7 * 2 ^ 7 ≤ p := Nat.div_mul_le_self p (2 ^ 7)
        calc p / 2 ^ 7 * (2 ^ shift * 2 ^ 7) = p / 2 ^ 7 * 2 ^ 7 * 2 ^ shift := by ring
          _ ≤ p * 2 ^ shift := Nat.mul_le_mul_right _ h1
          _ < 4294967296 := hp
      rw [dif_neg hd]
      rw [List.cons_append]
      simp only [read_varint_loop, process_varint_byte, hb, hb7, Nat.shiftLeft_eq]
      rw [Nat.mod_eq_of_lt (lt_of_le_of_lt hmle hp)]
      rw [or_mul_pow_eq_add acc (p % 128) shift hacc]
      rw [if_neg (by simpa using add128_and128_ne_zero hmlt)]
      rw [if_neg hshift]
      simp only [ite_false]
      rw [ih (p >>> 7) hlt _ _ _ rest hacc2 hp2]
      have hval : acc + p % 128 * 2 ^ shift + p >>> 7 * 2 ^ (shift + 7)
          = acc + p * 2 ^ shift := by
        rw [Nat.shiftRight_eq_div_pow, pow_add]
        have hdm : p % 128 + 128 * (p / 128) = p := by omega
        calc acc + p % 128 * 2 ^ shift + p / 2 ^ 7 * (2 ^ shift * 2 ^ 7)
            = acc + (p % 128 + 128 * (p / 128)) * 2 ^ shift := by norm_num; ring
          _ = acc + p * 2 ^ shift := by rw [hdm]
      rw [hval]
      simp only [List.length_cons]
      have hlen : pos + 1 + (write_varint_u32 (p >>> 7)).length
          = pos + ((write_varint_u32 (p >>> 7)).length + 1) := by omega
      rw [hlen]
      simp

/-- `write_varint` of a small non-negative value is the single byte of that
value. -/
lemma write_varint_small (n : Nat) (h : n < 128) : write_varint (n : Int) = [n] := by
  rw [write_varint]
  have hu : toU32 (n : Int) = n := by unfold toU32; omega
  have hd : n >>> 7 = 0 := by
    rw [Nat.shiftRight_eq_div_pow]
    norm_num
    omega
  rw [hu, write_varint_u32, dif_pos hd, and127_eq_mod]
  rw [Nat.mod_eq_of_lt h]

/-- The wire encoding of the protocol-version sentinel `-1`. -/
lemma write_varint_neg_one : write_varint (-1) = [255, 255, 255, 255, 15] := by
  rw [write_varint, show toU32 (-1) = 4294967295 from rfl]
  simp [write_varint_u32]
  decide

/-! ## Claims -/

/-- C1: for every 32-bit signed integer `v` (negative sentinels included,
encoded through the unsigned reinterpretation of the 32-bit pattern),
decoding the bytes produced by `write_varint` with `read_varint_from_slice`
returns exactly `v` and consumes exactly the bytes that were produced. -/
theorem claimC1_varint_roundtrip (v : Int)
    (h1 : -2147483648 ≤ v) (h2 : v < 2147483648) :
    read_varint_from_slice (write_varint v)
      = .ok (v, (write_varint v).length) := by
  have hu : toU32 v < 4294967296 := by unfold toU32; omega
  have hti : toInt32 (toU32 v) = v := by
    unfold toU32 toInt32
    split <;> omega
  have h := varint_roundtrip_loop (toU32 v) 0 0 0 [] (by norm_num)
    (by simpa using hu)
  rw [List.append_nil] at h
  rw [read_varint_from_slice, write_varint, h]
  simp [hti]

/-- C1 witness: the round-trip at the sentinel `-1`, whose encoding is the
five bytes `FF FF FF FF 0F`. -/
theorem claimC1_varint_roundtrip_witness :
    read_varint_from_slice (write_varint (-1)) = .ok (-1, 5) := by
  have h := claimC1_varint_roundtrip (-1) (by norm_num) (by norm_num)
  rw [write_varint_neg_one]
  rw [write_varint_neg_one] at h
  simpa using h


/-- The decoder's `i32` accumulator stays a 32-bit pattern. -/
lemma res2_lt (b res shift : Nat) (hres : res < 4294967296) :
    res ||| ((b &&& 127) <<< shift) % 4294967296 < 4294967296 := by
  have h1 : ((b &&& 127) <<< shift) % 4294967296 < 4294967296 :=
    Nat.mod_lt _ (by norm_num)
  rw [show (4294967296:Nat) = 2 ^ 32 by norm_num] at hres h1 ⊢
  exact Nat.or_lt_two_pow hres h1

/-- A successful decode from a 32-bit accumulator state yields an `i32`
value and consumes at most five bytes (counting from a shift that is a
reachable multiple of 7). -/
lemma read_varint_loop_ok_bounds :
    ∀ (data : List Nat) (res shift pos : Nat) (v : Int) (pos2 : Nat),
    res < 4294967296 → shift < 35 →
    read_varint_loop data res shift pos = .ok (v, pos2) →
    -2147483648 ≤ v ∧ v < 2147483648 ∧ pos2 ≤ pos + 5 - shift / 7 := by
  intro data
  induction data with
  | nil =>
    intro res shift pos v pos2 hres hshift h
    simp [read_varint_loop] at h
  | cons b rest ih =>
    intro res shift pos v pos2 hres hshift h
    have hlt := res2_lt b res shift hres
    simp only [read_varint_loop, process_varint_byte] at h
    by_cases hb : b &&& 128 = 0
    · simp [hb] at h
      obtain ⟨hv, hpos⟩ := h
      have hbd : -2147483648 ≤ v ∧ v < 2147483648 := by
        rw [← hv]
        unfold toInt32
        split <;> omega
      exact ⟨hbd.1, hbd.2, by omega⟩
    · by_cases hs : shift + 7 ≥ 35
      · simp [hb, hs] at h
      · simp [hb, hs] at h
        have hres3 := ih _ (shift + 7) (pos + 1) v pos2 hlt (by omega) h
        exact ⟨hres3.1, hres3.2.1, by omega⟩

/-- Every decode attempt ends in one of the two decoder errors or a
value. -/
lemma read_varint_loop_cases :
    ∀ (data : List Nat) (res shift pos : Nat),
    read_varint_loop data res shift pos = .error eofVarIntErr
    ∨ read_varint_loop data res shift pos = .error tooBigErr
    ∨ ∃ v pos2, read_varint_loop data res shift pos = .ok (v, pos2) := by
  intro data
  induction data with
  | nil => intro res shift pos; left; rfl
  | cons b rest ih =>
    intro res shift pos
    simp only [read_varint_loop, process_varint_byte]
    by_cases hb : b &&& 128 = 0
    · simp [hb]
    · by_cases hs : shift + 7 ≥ 35
      · simp [hb, hs]
      · simp [hb, hs]
        exact ih _ _ _

/-- C4: VarInt decoding of any finite byte sequence terminates with a value
or one of the two decoder errors; five leading continuation bytes fail with
the VarIntTooLarge error, and exhaustion (fewer than five bytes, none
terminating) fails with the UnexpectedEndOfData error. -/
theorem claimC4_varint_error_handling (data : List Nat) :
    ((∀ b ∈ data.take 5, b &&& 128 ≠ 0) → 5 ≤ data.length →
        read_varint_from_slice data = .error tooBigErr)
    ∧ (data.length < 5 → (∀ b ∈ data, b &&& 128 ≠ 0) →
        read_varint_from_slice data = .error eofVarIntErr)
    ∧ (read_varint_from_slice data = .error eofVarIntErr
        ∨ read_varint_from_slice data = .error tooBigErr
        ∨ ∃ v pos, read_varint_from_slice data = .ok (v, pos)) := by
  refine ⟨?_, ?_, read_varint_loop_cases data 0 0 0⟩
  · intro hcont hlen
    rcases data with _ | ⟨b0, _ | ⟨b1, _ | ⟨b2, _ | ⟨b3, _ | ⟨b4, rest⟩⟩⟩⟩⟩ <;>
      simp at hlen
    simp at hcont
    obtain ⟨h0, h1, h2, h3, h4⟩ := hcont
    simp [read_varint_from_slice, read_varint_loop, process_varint_byte,
      h0, h1, h2, h3, h4]
  · intro hlen hcont
    rcases data with _ | ⟨b0, _ | ⟨b1, _ | ⟨b2, _ | ⟨b3, _ | ⟨b4, rest⟩⟩⟩⟩⟩
    · rfl
    · simp at hcont
      simp [read_varint_from_slice, read_varint_loop, process_varint_byte, hcont]
    · simp at hcont
      obtain ⟨h0, h1⟩ := hcont
      simp [read_varint_from_slice, read_varint_loop, process_varint_byte, h0, h1]
    · simp at hcont
      obtain ⟨h0, h1, h2⟩ := hcont
      simp [read_varint_from_slice, read_varint_loop, process_varint_byte, h0, h1, h2]
    · simp at hcont
      obtain ⟨h0, h1, h2, h3⟩ := hcont
      simp [read_varint_from_slice, read_varint_loop, process_varint_byte,
        h0, h1, h2, h3]
    · simp at hlen
      omega

/-- C4 witness: five continuation bytes overflow; two exhaust the input. -/
theorem claimC4_varint_error_handling_witness :
    read_varint_from_slice [128, 128, 128, 128, 128] = .error tooBigErr
    ∧ read_varint_from_slice [128, 128] = .error eofVarIntErr :=
  ⟨(claimC4_varint_error_handling [128, 128, 128, 128, 128]).1
      (by decide) (by decide),
    (claimC4_varint_error_handling [128, 128]).2.1 (by decide) (by decide)⟩

/-- Forget everything but the decoded value and the error kind, so the
stream decoder and the slice decoder can be compared. -/
def varIntOutcome {α : Type} (r : Except IoError (Int × α)) :
    Except IoErrorKind Int :=
  match r with
  | .ok (v, _) => .ok v
  | .error e => .error e.kind

lemma stream_slice_loop_agree :
    ∀ (data : List Nat) (res shift pos : Nat),
    varIntOutcome (read_varint_stream_loop data res shift)
      = varIntOutcome (read_varint_loop data res shift pos) := by
  intro data
  induction data with
  | nil => intro res shift pos; rfl
  | cons b rest ih =>
    intro res shift pos
    simp only [read_varint_stream_loop, read_varint_loop]
    cases h : process_varint_byte b res shift with
    | error e => rfl
    | ok x =>
      obtain ⟨done, res2, shift2⟩ := x
      cases done
      · simpa using ih res2 shift2 (pos + 1)
      · rfl

/-- C8: the stream-based and the slice-based VarInt decoders agree — on
every byte sequence they produce the same value, or errors of the same
kind, because both step through `process_varint_byte`. -/
theorem claimC8_stream_slice_equivalent (data : List Nat) :
    varIntOutcome (read_varint data)
      = varIntOutcome (read_varint_from_slice data) :=
  stream_slice_loop_agree data 0 0 0



/-- C2: the claim fails — `read_string` panics instead of returning the
truncated-string error when the declared length decodes to a small negative
value.  On the bytes `FF FF FF FF 0F` (VarInt −1) the wrapping 64-bit sum
`offset + len as usize` becomes 4, which passes the `> data.len()` check,
and the slice `data[5..4]` panics. -/
theorem claimC2_read_string_negative_len :
    read_string [255, 255, 255, 255, 15] = Outcome.panicked
    ∧ read_string [255, 255, 255, 255, 15] ≠ .err truncatedStringErr := by
  constructor
  · rfl
  · decide

/-- No colon anywhere means std's `host:port` split fails. -/
lemma rsplitColon_eq_none (l : List Char) (h : ∀ c ∈ l, c ≠ ':') :
    rsplitColon l = none := by
  induction l with
  | nil => rfl
  | cons c rest ih =>
    have hc : c ≠ ':' := h c (by simp)
    have hr : rsplitColon rest = none := ih (fun x hx => h x (by simp [hx]))
    simp only [rsplitColon, hr]
    simp [hc]

/-- C3 counterexample: `ping_server("localhost")` fails at address
resolution; it does not default the port to 25565 and proceed. -/
theorem claimC3_counterexample :
    ping_resolve "localhost".toList = .error invalidSocketAddrErr := rfl

/-- C3 (amended): an address string with no colon makes `ping_server` fail
resolution with the invalid-socket-address error — no default port is
applied (the module's own test expects an address without a port to be an
error). -/
theorem claimC3_no_default_port (address : List Char)
    (h : ∀ c ∈ address, c ≠ ':') :
    ping_resolve address = .error invalidSocketAddrErr := by
  rw [ping_resolve, resolve_str_addr, rsplitColon_eq_none address h]

/-- C3 witness: a concrete colon-free host name. -/
theorem claimC3_no_default_port_witness :
    ping_resolve "host".toList = .error invalidSocketAddrErr :=
  claimC3_no_default_port "host".toList (by decide)

/-- C9 counterexample: a zero-length response payload makes
`ping_server`'s `&response[1..]` panic instead of producing a typed
error. -/
theorem claimC9_counterexample : ping_read_response [] = Outcome.panicked := rfl

/-- When the declared protocol-string length is not negative, `read_string`
cannot reach its panicking slice. -/
lemma read_string_not_panicked (data : List Nat)
    (h2 : declaredLenNonNeg data = true) :
    read_string data ≠ Outcome.panicked := by
  cases hv : read_varint_from_slice data with
  | error e => simp [read_string, hv]
  | ok x =>
    obtain ⟨len, off⟩ := x
    have hb := read_varint_loop_ok_bounds data 0 0 0 len off
      (by norm_num) (by norm_num) hv
    have hlen0 : 0 ≤ len := by
      rw [declaredLenNonNeg, hv] at h2
      exact of_decide_eq_true h2
    have hus : intAsUsize len = len.toNat := by
      unfold intAsUsize
      omega
    have hoff : off ≤ 5 := by
      have := hb.2.2
      omega
    have hsum : off + len.toNat < 18446744073709551616 := by
      have := hb.2.1
      omega
    simp only [read_string, hv, hus]
    rw [Nat.mod_eq_of_lt hsum]
    by_cases htr : data.length < off + len.toNat
    · simp [htr]
    · simp only [gt_iff_lt, htr, ite_false, if_neg htr]
      rw [if_neg (by omega : ¬ off + len.toNat < off)]
      simp

/-- C9 (amended): for a response payload of length at least 1 whose
protocol-string length field does not decode to a negative value,
`ping_server` strips exactly one leading packet-ID byte without validating
it and decodes the remainder as the protocol string, producing a value or a
typed error, never a panic.  (The empty payload, and a small negative
declared length, panic instead.) -/
theorem claimC9_response_handling (response : List Nat)
    (h1 : 1 ≤ response.length)
    (h2 : declaredLenNonNeg (response.drop 1) = true) :
    ping_read_response response = read_string (response.drop 1)
    ∧ ping_read_response response ≠ Outcome.panicked := by
  have heq : ping_read_response response = read_string (response.drop 1) := by
    rw [ping_read_response, if_neg (by omega)]
  refine ⟨heq, ?_⟩
  rw [heq]
  exact read_string_not_panicked (response.drop 1) h2

/-- C9 witness: a well-formed two-byte string payload behind the unchecked
packet-ID byte. -/
theorem claimC9_response_handling_witness :
    ping_read_response [0, 2, 104, 105] = read_string [2, 104, 105]
    ∧ ping_read_response [0, 2, 104, 105] ≠ Outcome.panicked :=
  claimC9_response_handling [0, 2, 104, 105] (by decide) (by decide)



/-- C5: the frame `ping_server` sends for the handshake is the VarInt
byte-length of the payload followed by the payload, and the payload is
exactly VarInt 0, VarInt -1 (bytes FF FF FF FF 0F), the protocol string of
the resolved IP, the port big-endian, VarInt 1. -/
theorem claimC5_handshake_layout (ip : List Nat) (port : Nat)
    (hport : port < 65536) (hip : ip.length < 117) :
    send_packet_bytes (ping_handshake ip port)
      = (10 + ip.length) :: 0 :: 255 :: 255 :: 255 :: 255 :: 15 :: ip.length ::
          (ip ++ [port / 256, port % 256, 1]) := by
  have h0 : write_varint 0 = [0] := by
    have h := write_varint_small 0 (by norm_num)
    simpa using h
  have h1 : write_varint 1 = [1] := by
    have h := write_varint_small 1 (by norm_num)
    simpa using h
  have hL : write_varint (ip.length : Int) = [ip.length] :=
    write_varint_small ip.length (by omega)
  have hpayload : ping_handshake ip port
      = [0] ++ [255, 255, 255, 255, 15] ++ ([ip.length] ++ ip)
          ++ [port / 256 % 256, port % 256] ++ [1] := by
    rw [ping_handshake, write_string, h0, h1, hL, write_varint_neg_one, u16_be]
  have hlen : (ping_handshake ip port).length = 10 + ip.length := by
    rw [hpayload]
    simp
    omega
  rw [send_packet_bytes, hlen]
  have hfr : write_varint ((10 + ip.length : Nat) : Int) = [10 + ip.length] :=
    write_varint_small (10 + ip.length) (by omega)
  rw [hfr, hpayload]
  have hp2 : port / 256 % 256 = port / 256 := by omega
  rw [hp2]
  simp

/-- C5 witness: the handshake frame for the resolved endpoint
127.0.0.1:25565. -/
theorem claimC5_handshake_layout_witness :
    send_packet_bytes (ping_handshake [49, 50, 55, 46, 48, 46, 48, 46, 49] 25565)
      = [19, 0, 255, 255, 255, 255, 15, 9,
          49, 50, 55, 46, 48, 46, 48, 46, 49, 99, 221, 1] := by
  have h := claimC5_handshake_layout [49, 50, 55, 46, 48, 46, 48, 46, 49] 25565
    (by norm_num) (by decide)
  simpa using h



/-- The spec's example status document with a bare-string description. -/
def exampleStatusStr : Json :=
  .jobj [("version", .jobj [("name", .jstr "1.20"), ("protocol", .jnum 763)]),
    ("players", .jobj [("max", .jnum 20), ("online", .jnum 3),
      ("sample", .jarr [])]),
    ("description", .jstr "A Server")]

/-- The same document with the object-shaped description. -/
def exampleStatusObj : Json :=
  .jobj [("version", .jobj [("name", .jstr "1.20"), ("protocol", .jnum 763)]),
    ("players", .jobj [("max", .jnum 20), ("online", .jnum 3),
      ("sample", .jarr [])]),
    ("description", .jobj [("text", .jstr "Another Server")])]

/-- The same document with no `players.sample` key. -/
def exampleStatusNoSample : Json :=
  .jobj [("version", .jobj [("name", .jstr "1.20"), ("protocol", .jnum 763)]),
    ("players", .jobj [("max", .jnum 20), ("online", .jnum 3)]),
    ("description", .jstr "A Server")]

/-- C6: deserialization accepts both description wire shapes and
normalizes them to the same plain text, and a document without
`players.sample` parses with the empty sample list. -/
theorem claimC6_description_shapes :
    statusDescText (deServerStatus exampleStatusStr) = some "A Server"
    ∧ statusDescText (deServerStatus exampleStatusObj) = some "Another Server"
    ∧ statusSample (deServerStatus exampleStatusNoSample) = some []
    ∧ deServerStatus exampleStatusNoSample
        = .ok ⟨⟨"1.20", 763⟩, ⟨20, 3, []⟩, .String "A Server"⟩ := by
  refine ⟨rfl, rfl, rfl, rfl⟩

/-- An out-of-range integer is rejected by the `u16` deserializer. -/
lemma deU16_out_of_range {n : Int} (h : n < 0 ∨ 65535 < n) :
    isErrB (deU16 (.jnum n)) = true := by
  simp only [deU16]
  rw [if_neg (by omega)]
  rfl

/-- A `VersionInfo` object with an out-of-range `protocol` integer fails. -/
lemma deVersionInfo_err (vf : List (String × Json)) (n : Int)
    (hn : n < 0 ∨ 65535 < n)
    (hp : getField vf "protocol" = some (.jnum n)) :
    isErrB (deVersionInfo (.jobj vf)) = true := by
  cases hx : getField vf "name" with
  | none => simp [deVersionInfo, hx, isErrB]
  | some jn =>
    cases hs : deStr jn with
    | error e => simp [deVersionInfo, hx, hs, isErrB]
    | ok nm =>
      cases hd : deU16 (.jnum n) with
      | error e => simp [deVersionInfo, hx, hs, hp, hd, isErrB]
      | ok u =>
        exfalso
        have h2 := deU16_out_of_range hn
        rw [hd] at h2
        simp [isErrB] at h2

/-- A `PlayersInfo` object whose `max` or `online` integer is out of range
fails. -/
lemma dePlayersInfo_err (pf : List (String × Json)) (n : Int)
    (hn : n < 0 ∨ 65535 < n)
    (hp : getField pf "max" = some (.jnum n)
      ∨ getField pf "online" = some (.jnum n)) :
    isErrB (dePlayersInfo (.jobj pf)) = true := by
  have hbad : ∀ u, deU16 (.jnum n) = .ok u → False := by
    intro u hd
    have h2 := deU16_out_of_range hn
    rw [hd] at h2
    simp [isErrB] at h2
  rcases hp with hp | hp
  · cases hd : deU16 (.jnum n) with
    | error e => simp [dePlayersInfo, hp, hd, isErrB]
    | ok u => exact absurd hd (by intro h; exact hbad u h)
  · cases hx : getField pf "max" with
    | none => simp [dePlayersInfo, hx, isErrB]
    | some jm =>
      cases hm : deU16 jm with
      | error e => simp [dePlayersInfo, hx, hm, isErrB]
      | ok m =>
        cases hd : deU16 (.jnum n) with
        | error e => simp [dePlayersInfo, hx, hm, hp, hd, isErrB]
        | ok u => exact absurd hd (by intro h; exact hbad u h)

/-- C10: any status JSON whose `version.protocol`, `players.max` or
`players.online` is a negative integer or exceeds 65535 fails to
deserialize, because those fields are `u16`. -/
theorem claimC10_u16_range (fields : List (String × Json)) (n : Int)
    (hn : n < 0 ∨ 65535 < n)
    (hpath :
      (∃ vf, getField fields "version" = some (.jobj vf)
        ∧ getField vf "protocol" = some (.jnum n))
      ∨ (∃ pf, getField fields "players" = some (.jobj pf)
        ∧ (getField pf "max" = some (.jnum n)
          ∨ getField pf "online" = some (.jnum n)))) :
    isErrB (deServerStatus (.jobj fields)) = true := by
  rcases hpath with ⟨vf, hv, hp⟩ | ⟨pf, hv, hp⟩
  · have herr := deVersionInfo_err vf n hn hp
    cases hd : deVersionInfo (.jobj vf) with
    | error e => simp [deServerStatus, hv, hd, isErrB]
    | ok v =>
      rw [hd] at herr
      simp [isErrB] at herr
  · cases hgv : getField fields "version" with
    | none => simp [deServerStatus, hgv, isErrB]
    | some jv =>
      cases hdv : deVersionInfo jv with
      | error e => simp [deServerStatus, hgv, hdv, isErrB]
      | ok v =>
        have herr := dePlayersInfo_err pf n hn hp
        cases hd : dePlayersInfo (.jobj pf) with
        | error e => simp [deServerStatus, hgv, hdv, hv, hd, isErrB]
        | ok p =>
          rw [hd] at herr
          simp [isErrB] at herr

/-- C10 witness: a document whose protocol field is -1 fails to parse. -/
theorem claimC10_u16_range_witness :
    isErrB (deServerStatus (.jobj
      [("version", .jobj [("name", .jstr "1.20"), ("protocol", .jnum (-1))])]))
      = true :=
  claimC10_u16_range
    [("version", .jobj [("name", .jstr "1.20"), ("protocol", .jnum (-1))])]
    (-1) (Or.inl (by norm_num))
    (Or.inl ⟨[("name", .jstr "1.20"), ("protocol", .jnum (-1))], rfl, rfl⟩)

set_option maxHeartbeats 1600000 in
/-- Lossy UTF-8 decoding is the identity on valid UTF-8 byte sequences. -/
lemma utf8Lossy_of_valid (l : List Nat) (h : utf8ValidB l = true) :
    utf8Lossy l = l := by
  induction l using utf8Lossy.induct
  all_goals (
    first
    | rfl
    | (exfalso
       revert h
       simp [utf8ValidB, *]
       done)
    | (rw [utf8ValidB.eq_def] at h
       rw [utf8Lossy.eq_def]
       simp only [*] at h ⊢
       simp_all))

/-- C7 (amended): for every valid UTF-8 string of byte-length below 2^31,
decoding the bytes `write_string` produced returns exactly that string; and
`write_string` on "test" yields the five bytes `04 74 65 73 74`.  (The
length bound is necessary: at byte-length 2^31 the prefix wraps to a
negative VarInt and the round-trip fails, see the counterexample.) -/
theorem claimC7_string_roundtrip :
    (∀ s : List Nat, utf8ValidB s = true → s.length < 2147483648 →
      read_string (write_string s) = .ok s)
    ∧ write_string [116, 101, 115, 116] = [4, 116, 101, 115, 116] := by
  constructor
  · intro s hv hlen
    have hu : toU32 (s.length : Int) = s.length := by unfold toU32; omega
    have henc := varint_roundtrip_loop (toU32 (s.length : Int)) 0 0 0 s
      (by norm_num) (by rw [hu]; simp; omega)
    rw [hu] at henc
    have hti : toInt32 (s.length * 2 ^ 0) = (s.length : Int) := by
      unfold toInt32
      rw [if_pos (by simpa using hlen)]
      simp
    rw [Nat.zero_add, hti, Nat.zero_add] at henc
    have henc2 : read_varint_from_slice (write_string s)
        = .ok ((s.length : Int), (write_varint_u32 (toU32 (s.length : Int))).length) := by
      rw [write_string, write_varint, read_varint_from_slice, hu]
      exact henc
    have hk := read_varint_loop_ok_bounds (write_string s) 0 0 0
      (s.length : Int) (write_varint_u32 (toU32 (s.length : Int))).length
      (by norm_num) (by norm_num)
      (by rw [read_varint_from_slice] at henc2; exact henc2)
    have hk5 : (write_varint_u32 (toU32 (s.length : Int))).length ≤ 5 := by
      have h55 := hk.2.2
      omega
    have hus : intAsUsize (s.length : Int) = s.length := by
      unfold intAsUsize
      omega
    simp only [read_string, henc2, hus]
    rw [Nat.mod_eq_of_lt (by omega)]
    have hdlen : (write_string s).length
        = (write_varint_u32 (toU32 (s.length : Int))).length + s.length := by
      rw [write_string, write_varint, hu]
      simp
    rw [if_neg (by omega), if_neg (by omega)]
    rw [Nat.add_sub_cancel_left]
    rw [write_string, write_varint]
    rw [List.drop_left, List.take_length, utf8Lossy_of_valid s hv]
  · have h4 := write_varint_small 4 (by norm_num)
    rw [write_string]
    norm_num at h4 ⊢
    rw [h4]
    rfl

/-- C7 witness: the round-trip on the two-byte UTF-8 encoding of U+00E9 and
the fixed vector for "test". -/
theorem claimC7_string_roundtrip_witness :
    read_string (write_string [195, 169]) = .ok [195, 169]
    ∧ write_string [116, 101, 115, 116] = [4, 116, 101, 115, 116] :=
  ⟨claimC7_string_roundtrip.1 [195, 169] (by decide) (by decide),
    claimC7_string_roundtrip.2⟩

/-- A slice whose VarInt length prefix decodes to the `i32` minimum (using
five bytes) is rejected by `read_string`: the sign-extended length is
astronomically large, so the bounds check fires. -/
lemma read_string_neg_min_len (data : List Nat)
    (hvs : read_varint_from_slice data = .ok (-2147483648, 5))
    (hlen2 : data.length = 2147483653) :
    read_string data = .err truncatedStringErr := by
  simp only [read_string, hvs, hlen2]
  rw [show intAsUsize (-2147483648) = 18446744071562067968 from by
    unfold intAsUsize; decide]
  norm_num

/-- C7 counterexample: a valid ASCII string of byte-length 2^31 does not
round-trip — `write_string` writes its length as the VarInt of the
wrapped-to-negative `i32`, and `read_string` then rejects the huge
sign-extended length with the truncated-string error instead of returning
the string. -/
theorem claimC7_counterexample :
    read_string (write_string (List.replicate 2147483648 97))
      = .err truncatedStringErr
    ∧ read_string (write_string (List.replicate 2147483648 97))
      ≠ .ok (List.replicate 2147483648 97) := by
  have henc : write_string (List.replicate 2147483648 97)
      = write_varint_u32 2147483648 ++ List.replicate 2147483648 97 := by
    rw [write_string, write_varint]
    simp only [List.length_replicate]
    rw [show toU32 ((2147483648 : Nat) : Int) = 2147483648 from by
      unfold toU32; omega]
  have hwv : write_varint_u32 2147483648 = [128, 128, 128, 128, 8] := by
    simp [write_varint_u32]
    decide
  have hdec := varint_roundtrip_loop 2147483648 0 0 0
    (List.replicate 2147483648 97) (by norm_num) (by norm_num)
  rw [show toInt32 (0 + 2147483648 * 2 ^ 0) = -2147483648 from by
    unfold toInt32; norm_num] at hdec
  rw [show 0 + (write_varint_u32 2147483648).length = 5 from by
    rw [hwv]; rfl] at hdec
  have hvs : read_varint_from_slice (write_string (List.replicate 2147483648 97))
      = .ok (-2147483648, 5) := by
    rw [read_varint_from_slice, henc]
    exact hdec
  have hlen2 : (write_string (List.replicate 2147483648 97)).length
      = 2147483653 := by
    rw [henc, hwv, List.length_append, List.length_replicate]
    rfl
  have hfin := read_string_neg_min_len _ hvs hlen2
  refine ⟨hfin, ?_⟩
  rw [hfin]
  exact fun hco => Outcome.noConfusion hco

end OxideVault
